import Mathlib

/-!
Verification of the ChromaCheck contrast engine (`src/script.js`, the later
snapshot, which includes the APCA path and the tier filters).

The discrete parts of the program (hex validation, parsing, palette
updates, pair enumeration, filtering) are embedded as computable Lean
functions over `String`, `ℚ` and lists.  The numeric parts (relative
luminance, contrast ratio, APCA Lc) are embedded over `ℝ`, with
JavaScript's `Math.pow` modelled by `Real.rpow` and `Math.round` by
`round` (both round half towards positive infinity on the values that
occur here).
-/

namespace PaletteChecker

/-- Compliance tier labels used by both WCAG and APCA classification
(the strings returned by `getComplianceLevel` / `getAPCAComplianceLevel`
in `script.js`). -/
inductive Level where
  | AAA
  | AA
  | AALarge
  | Fail
deriving DecidableEq, Repr

/-- Value of one hexadecimal digit character, as `parseInt(·, 16)` reads it.
A non-hex character contributes 0; such a character never reaches the parse
because `isValidHex` guards it. -/
def hexDigitVal (c : Char) : ℕ :=
  if 48 ≤ c.toNat ∧ c.toNat ≤ 57 then c.toNat - 48
  else if 97 ≤ c.toNat ∧ c.toNat ≤ 102 then c.toNat - 87
  else if 65 ≤ c.toNat ∧ c.toNat ≤ 70 then c.toNat - 55
  else 0

/-- Whether a character belongs to the class `[A-Fa-f0-9]`. -/
def isHexDigitChar (c : Char) : Bool :=
  (48 ≤ c.toNat && c.toNat ≤ 57) || (97 ≤ c.toNat && c.toNat ≤ 102) ||
    (65 ≤ c.toNat && c.toNat ≤ 70)

/-- `isValidHex` from `script.js`: the string matches
the regular expression `^#([A-Fa-f0-9]{6}|[A-Fa-f0-9]{3})$`. -/
def isValidHex (s : String) : Bool :=
  match s.data with
  | '#' :: rest => (rest.length == 6 || rest.length == 3) && rest.all isHexDigitChar
  | _ => false

/-- `expandHex` from `script.js`: a string of length 4 becomes
`"#" + hex[1]+hex[1] + hex[2]+hex[2] + hex[3]+hex[3]`; anything else is
returned unchanged. -/
def expandHex (s : String) : String :=
  match s.data with
  | [_, a, b, c] => ⟨['#', a, a, b, b, c, c]⟩
  | _ => s

/-- The three byte values `parseInt(hex.slice(1,3), 16)`,
`parseInt(hex.slice(3,5), 16)`, `parseInt(hex.slice(5,7), 16)` read by
`hexToRgb` from a valid color after expansion, before the division
by 255. -/
def hexBytes (s : String) : Option (ℕ × ℕ × ℕ) :=
  if isValidHex s then
    match (expandHex s).data with
    | [_, r1, r2, g1, g2, b1, b2] =>
        some (16 * hexDigitVal r1 + hexDigitVal r2,
              16 * hexDigitVal g1 + hexDigitVal g2,
              16 * hexDigitVal b1 + hexDigitVal b2)
    | _ => none
  else none

/-- `hexToRgb` from `script.js`: `null` becomes `none`; a valid color is
expanded to six digits and split into three channels, each byte pair parsed
base 16 and divided by 255. -/
def hexToRgb (s : String) : Option (ℚ × ℚ × ℚ) :=
  (hexBytes s).map fun rgb =>
    ((rgb.1 : ℚ) / 255, (rgb.2.1 : ℚ) / 255, (rgb.2.2 : ℚ) / 255)

noncomputable section

open Real

/-- The per-channel sRGB transfer function inside `getRelativeLuminance`:
`c <= 0.03928 ? c / 12.92 : Math.pow((c + 0.055) / 1.055, 2.4)`. -/
def processChannel (c : ℝ) : ℝ :=
  if c ≤ 0.03928 then c / 12.92 else ((c + 0.055) / 1.055) ^ (2.4 : ℝ)

/-- `getRelativeLuminance` from `script.js`; an invalid color yields `0`. -/
def getRelativeLuminance (hex : String) : ℝ :=
  match hexToRgb hex with
  | none => 0
  | some (r, g, b) =>
      0.2126 * processChannel (r : ℝ) + 0.7152 * processChannel (g : ℝ) +
        0.0722 * processChannel (b : ℝ)

/-- `getContrastRatio` from `script.js`: the raw WCAG ratio
`(lightest + 0.05) / (darkest + 0.05)`, then `Math.round(ratio * 100) / 100`. -/
def getContrastRatio (hex1 hex2 : String) : ℝ :=
  (round (((max (getRelativeLuminance hex1) (getRelativeLuminance hex2) + 0.05) /
      (min (getRelativeLuminance hex1) (getRelativeLuminance hex2) + 0.05)) * 100) : ℝ) / 100

/-- The contrast ratio as the spec defines it, with full floating-point
precision retained (no rounding before classification); kept alongside the
source's `getContrastRatio` to compare the two. -/
def specContrastRatio (hex1 hex2 : String) : ℝ :=
  (max (getRelativeLuminance hex1) (getRelativeLuminance hex2) + 0.05) /
    (min (getRelativeLuminance hex1) (getRelativeLuminance hex2) + 0.05)

/-- `getComplianceLevel` from `script.js`. -/
def getComplianceLevel (ratio : ℝ) : Level :=
  if 7 ≤ ratio then Level.AAA
  else if 4.5 ≤ ratio then Level.AA
  else if 3 ≤ ratio then Level.AALarge
  else Level.Fail

/-- `calcAPCA` from `script.js` (APCA 0.0.98G constants inlined): the final
value is `Math.round(SAPC * 100)` in both polarity branches, with the 0.0005
luminance-difference cut and the `±0.1` output clamps. -/
def calcAPCA (textHex bgHex : String) : ℝ :=
  match hexToRgb textHex, hexToRgb bgHex with
  | some (tr, tg, tb), some (br, bg, bb) =>
      let Ytxt0 : ℝ := (tr : ℝ) ^ (2.4 : ℝ) * 0.2126729 +
        (tg : ℝ) ^ (2.4 : ℝ) * 0.7151522 + (tb : ℝ) ^ (2.4 : ℝ) * 0.072175
      let Ybg0 : ℝ := (br : ℝ) ^ (2.4 : ℝ) * 0.2126729 +
        (bg : ℝ) ^ (2.4 : ℝ) * 0.7151522 + (bb : ℝ) ^ (2.4 : ℝ) * 0.072175
      let Ytxt : ℝ := if Ytxt0 < 0.022 then Ytxt0 + (0.022 - Ytxt0) ^ (1.414 : ℝ) else Ytxt0
      let Ybg : ℝ := if Ybg0 < 0.022 then Ybg0 + (0.022 - Ybg0) ^ (1.414 : ℝ) else Ybg0
      if |Ybg - Ytxt| < 0.0005 then 0
      else if Ytxt < Ybg then
        let SAPC : ℝ := (Ybg ^ (0.56 : ℝ) - Ytxt ^ (0.57 : ℝ)) * 1.14
        if SAPC < 0.1 then 0 else (round (SAPC * 100) : ℝ)
      else
        let SAPC : ℝ := (Ybg ^ (0.65 : ℝ) - Ytxt ^ (0.62 : ℝ)) * 1.14
        if -0.1 < SAPC then 0 else (round (SAPC * 100) : ℝ)
  | _, _ => 0

/-- The APCA Lc score as the spec defines it: the same branches and clamps
as `calcAPCA` but the result is `SAPC * 100` with full precision (no
rounding); kept alongside the source's `calcAPCA` to compare the two. -/
def specLc (textHex bgHex : String) : ℝ :=
  match hexToRgb textHex, hexToRgb bgHex with
  | some (tr, tg, tb), some (br, bg, bb) =>
      let Ytxt0 : ℝ := (tr : ℝ) ^ (2.4 : ℝ) * 0.2126729 +
        (tg : ℝ) ^ (2.4 : ℝ) * 0.7151522 + (tb : ℝ) ^ (2.4 : ℝ) * 0.072175
      let Ybg0 : ℝ := (br : ℝ) ^ (2.4 : ℝ) * 0.2126729 +
        (bg : ℝ) ^ (2.4 : ℝ) * 0.7151522 + (bb : ℝ) ^ (2.4 : ℝ) * 0.072175
      let Ytxt : ℝ := if Ytxt0 < 0.022 then Ytxt0 + (0.022 - Ytxt0) ^ (1.414 : ℝ) else Ytxt0
      let Ybg : ℝ := if Ybg0 < 0.022 then Ybg0 + (0.022 - Ybg0) ^ (1.414 : ℝ) else Ybg0
      if |Ybg - Ytxt| < 0.0005 then 0
      else if Ytxt < Ybg then
        let SAPC : ℝ := (Ybg ^ (0.56 : ℝ) - Ytxt ^ (0.57 : ℝ)) * 1.14
        if SAPC < 0.1 then 0 else SAPC * 100
      else
        let SAPC : ℝ := (Ybg ^ (0.65 : ℝ) - Ytxt ^ (0.62 : ℝ)) * 1.14
        if -0.1 < SAPC then 0 else SAPC * 100
  | _, _ => 0

/-- `getAPCAComplianceLevel` from `script.js`: classification of the
absolute Lc value against 75 / 60 / 45. -/
def getAPCAComplianceLevel (lc : ℝ) : Level :=
  if 75 ≤ |lc| then Level.AAA
  else if 60 ≤ |lc| then Level.AA
  else if 45 ≤ |lc| then Level.AALarge
  else Level.Fail

/-- The per-pair record computed in `renderCombinations`: WCAG ratio and
tier, APCA score and tier (the spec's `evaluatePair`). -/
structure ContrastResult where
  wcagRatio : ℝ
  wcagTier : Level
  apcaLc : ℝ
  apcaTier : Level

/-- The four values `ratio`, `level`, `apcaScore`, `apcaLevel` computed for
each pair in `renderCombinations`. -/
def evaluatePair (textHex bgHex : String) : ContrastResult :=
  { wcagRatio := getContrastRatio textHex bgHex
    wcagTier := getComplianceLevel (getContrastRatio textHex bgHex)
    apcaLc := calcAPCA textHex bgHex
    apcaTier := getAPCAComplianceLevel (calcAPCA textHex bgHex) }

/-- `filterCombinations` from `script.js`: a card is shown iff
`activeFilters[level]` holds, where `level` is the card's `data-level`
attribute (which `renderCombinations` sets to the pair's WCAG tier). -/
def cardVisible (activeFilters : Level → Bool) (dataLevel : Level) : Bool :=
  activeFilters dataLevel

/-- Modelled from the spec: the "APCA informational only" mode toggle of
spec section 4.4 is missing from `src/script.js` (the changelog documents
it, but the snapshot's `filterCombinations` only ever reads the WCAG
tier stored in `data-level`), so the mode-driven lookup is modelled from
the spec's words: look up the WCAG tier when the flag is set, the APCA
tier otherwise, and show iff that tier's filter flag is true. -/
def isVisible (result : ContrastResult) (filterState : Level → Bool)
    (apcaInformationalOnly : Bool) : Bool :=
  filterState (if apcaInformationalOnly then result.wcagTier else result.apcaTier)

end

/-- A palette entry as held in the `colors` array of `script.js`: the
random UI id and the hex string. -/
structure ColorEntry where
  id : String
  hex : String
deriving DecidableEq, Repr

instance : Inhabited ColorEntry := ⟨⟨"", ""⟩⟩

/-- `updateColor` from `script.js`: `colors.find(c => c.id === id)` locates
the first entry with the given id; if one exists and the new hex passes
`isValidHex`, that entry's `hex` field is overwritten in place; otherwise
nothing changes. -/
def updateColor : List ColorEntry → String → String → List ColorEntry
  | [], _, _ => []
  | c :: cs, i, h =>
    if c.id = i then
      (if isValidHex h then { c with hex := h } :: cs else c :: cs)
    else c :: updateColor cs i h

/-- The index pairs generated by the nested loops of `renderCombinations`:
outer `i` ascending over `0..n-1`, inner `j` ascending over `0..n-1`,
pushing `(i, j)` whenever `i !== j`. -/
def pairIndices (n : ℕ) : List (ℕ × ℕ) :=
  (List.range n).flatMap fun i =>
    (List.range n).filterMap fun j => if i = j then none else some (i, j)

/-- The ordered (text, background) entry pairs built by
`renderCombinations`, in loop order. -/
def generatePairs (colors : List ColorEntry) : List (ColorEntry × ColorEntry) :=
  (pairIndices colors.length).map fun ij =>
    (colors.getD ij.1 default, colors.getD ij.2 default)

/-! ## Bounding real powers by rational arithmetic

`x ^ (p/q : ℝ)` for natural `p`, `q` is compared against a rational bound
by raising both sides to the `q`-th power. -/

theorem lt_rpow_of_pow_lt {x a : ℝ} {p q : ℕ} (hq : 0 < q) (hx : 0 < x)
    (h : a ^ q < x ^ p) : a < x ^ ((p : ℝ) / (q : ℝ)) := by
  have hq' : ((q : ℝ)) ≠ 0 := Nat.cast_ne_zero.mpr hq.ne'
  have hxq : (x ^ ((p : ℝ) / (q : ℝ))) ^ q = x ^ p := by
    rw [← Real.rpow_natCast (x ^ ((p : ℝ) / (q : ℝ))) q, ← Real.rpow_mul hx.le,
      div_mul_cancel₀ _ hq', Real.rpow_natCast]
  by_contra hcon
  push_neg at hcon
  have h2 := pow_le_pow_left₀ (Real.rpow_nonneg hx.le _) hcon q
  rw [hxq] at h2
  exact absurd (lt_of_lt_of_le h h2) (lt_irrefl _)

theorem rpow_lt_of_pow_lt {x b : ℝ} {p q : ℕ} (hq : 0 < q) (hx : 0 < x)
    (hb : 0 ≤ b) (h : x ^ p < b ^ q) : x ^ ((p : ℝ) / (q : ℝ)) < b := by
  have hq' : ((q : ℝ)) ≠ 0 := Nat.cast_ne_zero.mpr hq.ne'
  have hxq : (x ^ ((p : ℝ) / (q : ℝ))) ^ q = x ^ p := by
    rw [← Real.rpow_natCast (x ^ ((p : ℝ) / (q : ℝ))) q, ← Real.rpow_mul hx.le,
      div_mul_cancel₀ _ hq', Real.rpow_natCast]
  by_contra hcon
  push_neg at hcon
  have h2 := pow_le_pow_left₀ hb hcon q
  rw [hxq] at h2
  exact absurd (lt_of_le_of_lt h2 h) (lt_irrefl _)

/-! ## Luminance values at the concrete colors used below -/

theorem lum_black : getRelativeLuminance "#000000" = 0 := by
  have hB : hexBytes "#000000" = some (0, 0, 0) := by decide
  have h : hexToRgb "#000000" = some (0, 0, 0) := by
    rw [hexToRgb, hB]
    norm_num
  simp only [getRelativeLuminance, h]
  norm_num [processChannel]

theorem pc116_bounds : 0.174597 < processChannel ((116 : ℝ) / 255) ∧
    processChannel ((116 : ℝ) / 255) < 0.174697 := by
  have hc : ¬ ((116 : ℝ) / 255 ≤ 0.03928) := by norm_num
  have hbase : ((116 : ℝ) / 255 + 0.055) / 1.055 = 5201 / 10761 := by norm_num
  have h24 : (2.4 : ℝ) = ((12 : ℕ) : ℝ) / ((5 : ℕ) : ℝ) := by norm_num
  rw [processChannel, if_neg hc, hbase, h24]
  refine ⟨lt_rpow_of_pow_lt (by norm_num) (by norm_num) (by norm_num),
    rpow_lt_of_pow_lt (by norm_num) (by norm_num) (by norm_num) (by norm_num)⟩

theorem pc117_bounds : 0.177838 < processChannel ((117 : ℝ) / 255) ∧
    processChannel ((117 : ℝ) / 255) < 0.177936 := by
  have hc : ¬ ((117 : ℝ) / 255 ≤ 0.03928) := by norm_num
  have hbase : ((117 : ℝ) / 255 + 0.055) / 1.055 = 5241 / 10761 := by norm_num
  have h24 : (2.4 : ℝ) = ((12 : ℕ) : ℝ) / ((5 : ℕ) : ℝ) := by norm_num
  rw [processChannel, if_neg hc, hbase, h24]
  refine ⟨lt_rpow_of_pow_lt (by norm_num) (by norm_num) (by norm_num),
    rpow_lt_of_pow_lt (by norm_num) (by norm_num) (by norm_num) (by norm_num)⟩

theorem lum747475_bounds : 0.174831 < getRelativeLuminance "#747475" ∧
    getRelativeLuminance "#747475" < 0.174931 := by
  have hB : hexBytes "#747475" = some (116, 116, 117) := by decide
  have h : hexToRgb "#747475" = some (116 / 255, 116 / 255, 117 / 255) := by
    rw [hexToRgb, hB]
    norm_num
  have e1 : (((116 : ℚ) / 255 : ℚ) : ℝ) = (116 : ℝ) / 255 := by norm_num
  have e2 : (((117 : ℚ) / 255 : ℚ) : ℝ) = (117 : ℝ) / 255 := by norm_num
  have p1 := pc116_bounds
  have p2 := pc117_bounds
  simp only [getRelativeLuminance, h, e1, e2]
  constructor <;> linarith [p1.1, p1.2, p2.1, p2.2]

theorem specContrastRatio_000000_747475_bounds :
    4.49662 < specContrastRatio "#000000" "#747475" ∧
    specContrastRatio "#000000" "#747475" < 4.49862 := by
  have hb := lum_black
  have hL := lum747475_bounds
  have hmax : max (getRelativeLuminance "#000000") (getRelativeLuminance "#747475")
      = getRelativeLuminance "#747475" := by
    rw [hb]
    exact max_eq_right (by linarith [hL.1])
  have hmin : min (getRelativeLuminance "#000000") (getRelativeLuminance "#747475")
      = (0 : ℝ) := by
    rw [hb]
    exact min_eq_left (by linarith [hL.1])
  have hval : specContrastRatio "#000000" "#747475"
      = 20 * getRelativeLuminance "#747475" + 1 := by
    rw [specContrastRatio, hmax, hmin]
    rw [div_eq_iff (by norm_num : ((0 : ℝ) + 0.05) ≠ 0)]
    ring
  rw [hval]
  constructor <;> linarith [hL.1, hL.2]

/-- C1: the claim that the WCAG tier is computed from the full-precision,
unrounded contrast ratio is false of the code: `getContrastRatio` applies
`Math.round(ratio * 100) / 100` before `getComplianceLevel` sees the value.
At text `#000000` on background `#747475` the unrounded ratio is below 4.5
(so the spec's classification is "AA Large"), but the code rounds it up to
exactly 4.5 and classifies the pair as AA. -/
theorem wcag_tier_uses_rounded_ratio :
    getContrastRatio "#000000" "#747475" = 4.5 ∧
    getComplianceLevel (getContrastRatio "#000000" "#747475") = Level.AA ∧
    specContrastRatio "#000000" "#747475" < 4.5 ∧
    getComplianceLevel (specContrastRatio "#000000" "#747475") = Level.AALarge := by
  have hs := specContrastRatio_000000_747475_bounds
  have hgc : getContrastRatio "#000000" "#747475"
      = (round (specContrastRatio "#000000" "#747475" * 100) : ℝ) / 100 := rfl
  have hr : round (specContrastRatio "#000000" "#747475" * 100) = (450 : ℤ) := by
    rw [round_eq]
    refine Int.floor_eq_iff.mpr ⟨?_, ?_⟩ <;> push_cast <;> [linarith [hs.1]; linarith [hs.2]]
  have h45 : getContrastRatio "#000000" "#747475" = 4.5 := by
    rw [hgc, hr]
    norm_num
  refine ⟨h45, ?_, by linarith [hs.2], ?_⟩
  · rw [h45]
    simp only [getComplianceLevel]
    rw [if_neg (by norm_num), if_pos (by norm_num)]
  · simp only [getComplianceLevel]
    rw [if_neg (by linarith [hs.2]), if_neg (by linarith [hs.2]), if_pos (by linarith [hs.1])]

/-! ## APCA evaluation at text `#b1b1b1` on background `#ffffff` -/

theorem rgb_b1b1b1 : hexToRgb "#b1b1b1" = some (177 / 255, 177 / 255, 177 / 255) := by
  have hB : hexBytes "#b1b1b1" = some (177, 177, 177) := by decide
  rw [hexToRgb, hB]
  norm_num

theorem rgb_ffffff : hexToRgb "#ffffff" = some (1, 1, 1) := by
  have hB : hexBytes "#ffffff" = some (255, 255, 255) := by decide
  rw [hexToRgb, hB]
  norm_num

theorem pow24_177_bounds : 0.41628 < ((177 : ℝ) / 255) ^ (2.4 : ℝ) ∧
    ((177 : ℝ) / 255) ^ (2.4 : ℝ) < 0.41638 := by
  have hbase : (177 : ℝ) / 255 = 59 / 85 := by norm_num
  have h24 : (2.4 : ℝ) = ((12 : ℕ) : ℝ) / ((5 : ℕ) : ℝ) := by norm_num
  rw [hbase, h24]
  refine ⟨lt_rpow_of_pow_lt (by norm_num) (by norm_num) (by norm_num),
    rpow_lt_of_pow_lt (by norm_num) (by norm_num) (by norm_num) (by norm_num)⟩

theorem pow57_lower {y : ℝ} (h : 0.41628 < y) : (0.6067 : ℝ) < y ^ (0.57 : ℝ) := by
  have e57 : (0.57 : ℝ) = ((57 : ℕ) : ℝ) / ((100 : ℕ) : ℝ) := by norm_num
  calc (0.6067 : ℝ) < (0.41628 : ℝ) ^ (0.57 : ℝ) := by
        rw [e57]
        exact lt_rpow_of_pow_lt (by norm_num) (by norm_num) (by norm_num)
    _ ≤ y ^ (0.57 : ℝ) := Real.rpow_le_rpow (by norm_num) h.le (by norm_num)

theorem pow57_upper {y : ℝ} (h0 : 0 ≤ y) (h : y < 0.416381) :
    y ^ (0.57 : ℝ) < 0.60695 := by
  have e57 : (0.57 : ℝ) = ((57 : ℕ) : ℝ) / ((100 : ℕ) : ℝ) := by norm_num
  calc y ^ (0.57 : ℝ) < (0.416381 : ℝ) ^ (0.57 : ℝ) :=
        Real.rpow_lt_rpow h0 h (by norm_num)
    _ < 0.60695 := by
        rw [e57]
        exact rpow_lt_of_pow_lt (by norm_num) (by norm_num) (by norm_num) (by norm_num)

theorem pow56_white_bounds : 1 < (1.0000001 : ℝ) ^ (0.56 : ℝ) ∧
    (1.0000001 : ℝ) ^ (0.56 : ℝ) ≤ 1.0000001 := by
  constructor
  · exact (Real.one_lt_rpow_iff_of_pos (by norm_num)).mpr (Or.inl ⟨by norm_num, by norm_num⟩)
  · have h := Real.rpow_le_rpow_of_exponent_le
      (by norm_num : (1 : ℝ) ≤ 1.0000001) (by norm_num : (0.56 : ℝ) ≤ 1)
    rwa [Real.rpow_one] at h

set_option maxHeartbeats 1000000 in
theorem apca_b1b1b1_ffffff_eval :
    calcAPCA "#b1b1b1" "#ffffff" = 45 ∧
    44.8077 < specLc "#b1b1b1" "#ffffff" ∧ specLc "#b1b1b1" "#ffffff" < 44.8363 := by
  have hp := pow24_177_bounds
  -- the text luminance expression, abbreviated into an opaque variable
  obtain ⟨Yt, hYtdef⟩ : ∃ y : ℝ, y = ((177 : ℝ) / 255) ^ (2.4 : ℝ) * 0.2126729 +
      ((177 : ℝ) / 255) ^ (2.4 : ℝ) * 0.7151522 +
      ((177 : ℝ) / 255) ^ (2.4 : ℝ) * 0.072175 := ⟨_, rfl⟩
  have hYt : 0.41628 < Yt ∧ Yt < 0.416381 := by
    rw [hYtdef]
    constructor <;> linarith [hp.1, hp.2]
  have hT1 : (0.6067 : ℝ) < Yt ^ (0.57 : ℝ) := pow57_lower hYt.1
  have hT2 : Yt ^ (0.57 : ℝ) < 0.60695 :=
    pow57_upper (le_trans (by norm_num) hYt.1.le) hYt.2
  have hB1 : 1 < (1.0000001 : ℝ) ^ (0.56 : ℝ) := pow56_white_bounds.1
  have hB2 : (1.0000001 : ℝ) ^ (0.56 : ℝ) ≤ 1.0000001 := pow56_white_bounds.2
  have hYb : (((1 : ℚ) : ℝ)) ^ (2.4 : ℝ) * 0.2126729 + (((1 : ℚ) : ℝ)) ^ (2.4 : ℝ) * 0.7151522 +
      (((1 : ℚ) : ℝ)) ^ (2.4 : ℝ) * 0.072175 = 1.0000001 := by
    rw [Rat.cast_one, Real.one_rpow]
    norm_num
  have hcast : (((177 / 255 : ℚ)) : ℝ) = (177 : ℝ) / 255 := by norm_num
  have habs : ¬ (|(1.0000001 : ℝ) - Yt| < 0.0005) := by
    rw [abs_of_pos (by linarith [hYt.2])]
    intro hcon
    linarith [hYt.2]
  have hclampT : ¬ (Yt < 0.022) := by
    intro hcon
    linarith [hYt.1]
  have hclampB : ¬ ((1.0000001 : ℝ) < 0.022) := by norm_num
  have hSAPC : ¬ (((1.0000001 : ℝ) ^ (0.56 : ℝ) - Yt ^ (0.57 : ℝ)) * 1.14 < 0.1) := by
    intro hcon
    nlinarith [hB1, hT2]
  have hbranch : Yt < (1.0000001 : ℝ) := by linarith [hYt.2]
  have hlo : (44.8077 : ℝ) < ((1.0000001 : ℝ) ^ (0.56 : ℝ) - Yt ^ (0.57 : ℝ)) * 1.14 * 100 := by
    nlinarith [hB1, hT2]
  have hhi : ((1.0000001 : ℝ) ^ (0.56 : ℝ) - Yt ^ (0.57 : ℝ)) * 1.14 * 100 < 44.8363 := by
    nlinarith [hB2, hT1]
  refine ⟨?_, ?_, ?_⟩
  · simp only [calcAPCA, rgb_b1b1b1, rgb_ffffff, hcast, ← hYtdef, hYb]
    rw [if_neg hclampT, if_neg hclampB, if_neg habs, if_pos hbranch, if_neg hSAPC]
    have hr : round (((1.0000001 : ℝ) ^ (0.56 : ℝ) - Yt ^ (0.57 : ℝ)) * 1.14 * 100) = (45 : ℤ) := by
      rw [round_eq]
      refine Int.floor_eq_iff.mpr ⟨?_, ?_⟩ <;> push_cast <;> [linarith [hlo]; linarith [hhi]]
    rw [hr]
    norm_num
  · simp only [specLc, rgb_b1b1b1, rgb_ffffff, hcast, ← hYtdef, hYb]
    rw [if_neg hclampT, if_neg hclampB, if_neg habs, if_pos hbranch, if_neg hSAPC]
    linarith [hlo]
  · simp only [specLc, rgb_b1b1b1, rgb_ffffff, hcast, ← hYtdef, hYb]
    rw [if_neg hclampT, if_neg hclampB, if_neg habs, if_pos hbranch, if_neg hSAPC]
    linarith [hhi]

/-- C2: the claim that the APCA tier is computed from the full-precision,
unrounded Lc score is false of the code: `calcAPCA` returns
`Math.round(SAPC * 100)`, so `getAPCAComplianceLevel` sees a rounded
integer.  For text `#b1b1b1` on background `#ffffff` the unrounded score is
about 44.82 (spec tier: Fail, since `|Lc| < 45`), but the code rounds it to
45 and classifies the pair as "AA Large". -/
theorem apca_tier_uses_rounded_lc :
    calcAPCA "#b1b1b1" "#ffffff" = 45 ∧
    getAPCAComplianceLevel (calcAPCA "#b1b1b1" "#ffffff") = Level.AALarge ∧
    |specLc "#b1b1b1" "#ffffff"| < 45 ∧
    getAPCAComplianceLevel (specLc "#b1b1b1" "#ffffff") = Level.Fail := by
  have h := apca_b1b1b1_ffffff_eval
  have habs : |specLc "#b1b1b1" "#ffffff"| < 45 := by
    rw [abs_of_pos (by linarith [h.2.1])]
    linarith [h.2.2]
  have ha45 : |(45 : ℝ)| = 45 := abs_of_pos (by norm_num)
  refine ⟨h.1, ?_, habs, ?_⟩
  · rw [h.1]
    simp only [getAPCAComplianceLevel, ha45]
    rw [if_neg (by norm_num), if_neg (by norm_num), if_pos (by norm_num)]
  · simp only [getAPCAComplianceLevel]
    rw [if_neg (by intro hcon; linarith [habs]), if_neg (by intro hcon; linarith [habs]),
      if_neg (by intro hcon; linarith [habs])]

/-- C3: the claim that the returned Lc equals
`(Y_bg^0.56 − Y_text^0.57) × 1.14 × 100` (unrounded) in the
light-background branch is false of the code: `calcAPCA` rounds that value
to the nearest integer.  At text `#b1b1b1` on background `#ffffff` the
formula value is below 44.84 while the code returns exactly 45. -/
theorem apca_lc_value_is_rounded :
    calcAPCA "#b1b1b1" "#ffffff" ≠ specLc "#b1b1b1" "#ffffff" ∧
    calcAPCA "#b1b1b1" "#ffffff" = 45 ∧
    specLc "#b1b1b1" "#ffffff" < 44.84 := by
  have h := apca_b1b1b1_ffffff_eval
  refine ⟨?_, h.1, by linarith [h.2.2]⟩
  rw [h.1]
  intro heq
  rw [← heq] at h
  linarith [h.2.2]

/-! ## Pair enumeration -/

theorem filterMap_ite (i : ℕ) (l : List ℕ) :
    (l.filterMap fun j => if i = j then none else some (i, j)) =
    (l.filter fun j => i != j).map fun j => (i, j) := by
  induction l with
  | nil => rfl
  | cons a t ih =>
    rw [List.filterMap_cons, List.filter_cons]
    by_cases h : i = a
    · subst h
      simp [ih]
    · simp [h, ih]

theorem inner_length (i n : ℕ) :
    ((List.range n).filterMap fun j => if i = j then none else some (i, j)).length
      = if i < n then n - 1 else n := by
  rw [filterMap_ite, List.length_map]
  induction n with
  | zero => simp
  | succ m ih =>
    have hsingle : List.filter (fun j => i != j) [m] = if i = m then [] else [m] := by
      by_cases h : i = m
      · simp [h]
      · simp [if_neg h, bne_iff_ne.mpr h]
    rw [List.range_succ, List.filter_append, List.length_append, ih, hsingle]
    by_cases h : i = m
    · subst h
      simp
    · rw [if_neg h]
      by_cases hlt : i < m
      · rw [if_pos hlt, if_pos (by omega : i < m + 1)]
        simp only [List.length_cons, List.length_nil]
        omega
      · rw [if_neg hlt, if_neg (by omega : ¬ i < m + 1)]
        simp only [List.length_cons, List.length_nil]

theorem pairIndices_length (n : ℕ) : (pairIndices n).length = n * (n - 1) := by
  rw [pairIndices, List.length_flatMap]
  have h : ∀ i ∈ List.range n,
      (List.length ∘ fun i => (List.range n).filterMap
        fun j => if i = j then none else some (i, j)) i = n - 1 := by
    intro i hi
    have hlt := List.mem_range.mp hi
    simp only [Function.comp_apply]
    rw [inner_length, if_pos hlt]
  rw [List.map_congr_left h]
  have hconst : (List.range n).map (fun _ => n - 1) = List.replicate n (n - 1) := by
    rw [show (fun _ : ℕ => n - 1) = Function.const ℕ (n - 1) from rfl,
      List.map_const, List.length_range]
  rw [hconst, List.sum_replicate, smul_eq_mul]

theorem pairIndices_ne {n : ℕ} {p : ℕ × ℕ} (hp : p ∈ pairIndices n) : p.1 ≠ p.2 := by
  rw [pairIndices, List.mem_flatMap] at hp
  obtain ⟨i, _, hi⟩ := hp
  rw [List.mem_filterMap] at hi
  obtain ⟨j, _, hj⟩ := hi
  by_cases h : i = j
  · rw [if_pos h] at hj
    cases hj
  · rw [if_neg h] at hj
    injection hj with h2
    subst h2
    exact h

theorem pairIndices_eq_product_filter (n : ℕ) :
    pairIndices n =
      (List.product (List.range n) (List.range n)).filter fun p => p.1 != p.2 := by
  have hprod : List.product (List.range n) (List.range n)
      = (List.range n).flatMap fun a => (List.range n).map (Prod.mk a) := rfl
  rw [pairIndices, hprod, List.filter_flatMap]
  refine List.flatMap_congr fun i _ => ?_
  rw [List.filter_map, filterMap_ite]
  rfl

/-- The default palette of `script.js` (its ids are random at runtime;
sample ids stand in for them here). -/
def demoPalette : List ColorEntry :=
  [⟨"a", "#0f172a"⟩, ⟨"b", "#f8fafc"⟩, ⟨"c", "#3b82f6"⟩]

/-- C4: for a palette of N colors (2 ≤ N ≤ 9) the nested loops of
`renderCombinations` produce exactly N×(N−1) ordered (text, background)
pairs, never a pair with equal text and background index, and the order is
the lexicographic order of the double loop (outer text index ascending,
inner background index ascending, skipping i = j). -/
theorem pair_enumeration_correct (colors : List ColorEntry)
    (_h2 : 2 ≤ colors.length) (_h9 : colors.length ≤ 9) :
    (generatePairs colors).length = colors.length * (colors.length - 1) ∧
    (∀ p ∈ pairIndices colors.length, p.1 ≠ p.2) ∧
    pairIndices colors.length =
      (List.product (List.range colors.length) (List.range colors.length)).filter
        fun p => p.1 != p.2 := by
  refine ⟨?_, fun p hp => pairIndices_ne hp, pairIndices_eq_product_filter _⟩
  rw [generatePairs, List.length_map, pairIndices_length]

/-- Witness for C4 at the default three-color palette. -/
theorem pair_enumeration_correct_witness :
    2 ≤ demoPalette.length ∧ demoPalette.length ≤ 9 ∧
    ((generatePairs demoPalette).length = demoPalette.length * (demoPalette.length - 1) ∧
    (∀ p ∈ pairIndices demoPalette.length, p.1 ≠ p.2) ∧
    pairIndices demoPalette.length =
      (List.product (List.range demoPalette.length) (List.range demoPalette.length)).filter
        fun p => p.1 != p.2) :=
  ⟨by decide, by decide, pair_enumeration_correct demoPalette (by decide) (by decide)⟩

/-! ## Ranges of the decoded channels and of the luminance -/

theorem hexDigitVal_le (c : Char) : hexDigitVal c ≤ 15 := by
  rw [hexDigitVal]
  split_ifs with h1 h2 h3 <;> omega

theorem hexBytes_le {s : String} {r g b : ℕ} (h : hexBytes s = some (r, g, b)) :
    r ≤ 255 ∧ g ≤ 255 ∧ b ≤ 255 := by
  rw [hexBytes] at h
  split at h
  · split at h
    · injection h with h'
      simp only [Prod.mk.injEq] at h'
      obtain ⟨e1, e2, e3⟩ := h'
      subst e1 e2 e3
      rename_i hd r1 r2 g1 g2 b1 b2 heq2
      have hr1 := hexDigitVal_le r1
      have hr2 := hexDigitVal_le r2
      have hg1 := hexDigitVal_le g1
      have hg2 := hexDigitVal_le g2
      have hb1 := hexDigitVal_le b1
      have hb2 := hexDigitVal_le b2
      refine ⟨by omega, by omega, by omega⟩
    · cases h
  · cases h

theorem hexToRgb_mem {s : String} {r g b : ℚ} (h : hexToRgb s = some (r, g, b)) :
    (0 ≤ r ∧ r ≤ 1) ∧ (0 ≤ g ∧ g ≤ 1) ∧ (0 ≤ b ∧ b ≤ 1) := by
  rw [hexToRgb] at h
  rcases heq : hexBytes s with _ | ⟨br, bg, bb⟩
  · rw [heq] at h
    cases h
  · rw [heq] at h
    obtain ⟨h1, h2, h3⟩ := hexBytes_le heq
    injection h with h'
    simp only [Prod.mk.injEq] at h'
    obtain ⟨e1, e2, e3⟩ := h'
    subst e1 e2 e3
    refine ⟨⟨by positivity, ?_⟩, ⟨by positivity, ?_⟩, ⟨by positivity, ?_⟩⟩ <;>
      rw [div_le_one (by norm_num)] <;> exact_mod_cast by assumption

theorem processChannel_nonneg {c : ℝ} (h : 0 ≤ c) : 0 ≤ processChannel c := by
  rw [processChannel]
  split_ifs
  · positivity
  · exact Real.rpow_nonneg (div_nonneg (by linarith) (by norm_num)) _

theorem processChannel_le_one {c : ℝ} (h0 : 0 ≤ c) (h1 : c ≤ 1) :
    processChannel c ≤ 1 := by
  rw [processChannel]
  split_ifs with hc
  · rw [div_le_one (by norm_num)]
    linarith
  · exact Real.rpow_le_one (div_nonneg (by linarith) (by norm_num))
      (by rw [div_le_one (by norm_num)]; linarith) (by norm_num)

theorem lum_nonneg (s : String) : 0 ≤ getRelativeLuminance s := by
  rcases heq : hexToRgb s with _ | ⟨r, g, b⟩
  · simp [getRelativeLuminance, heq]
  · obtain ⟨⟨hr0, _⟩, ⟨hg0, _⟩, ⟨hb0, _⟩⟩ := hexToRgb_mem heq
    simp only [getRelativeLuminance, heq]
    have c1 := processChannel_nonneg (c := (r : ℝ)) (by exact_mod_cast hr0)
    have c2 := processChannel_nonneg (c := (g : ℝ)) (by exact_mod_cast hg0)
    have c3 := processChannel_nonneg (c := (b : ℝ)) (by exact_mod_cast hb0)
    linarith

theorem lum_le_one (s : String) : getRelativeLuminance s ≤ 1 := by
  rcases heq : hexToRgb s with _ | ⟨r, g, b⟩
  · simp [getRelativeLuminance, heq]
  · obtain ⟨⟨hr0, hr1⟩, ⟨hg0, hg1⟩, ⟨hb0, hb1⟩⟩ := hexToRgb_mem heq
    simp only [getRelativeLuminance, heq]
    have c1 := processChannel_le_one (c := (r : ℝ)) (by exact_mod_cast hr0) (by exact_mod_cast hr1)
    have c2 := processChannel_le_one (c := (g : ℝ)) (by exact_mod_cast hg0) (by exact_mod_cast hg1)
    have c3 := processChannel_le_one (c := (b : ℝ)) (by exact_mod_cast hb0) (by exact_mod_cast hb1)
    linarith

/-! ## C5: symmetry and range of the WCAG contrast ratio -/

/-- C5: for valid 6-digit hex colors the rounded contrast ratio returned by
`getContrastRatio` is symmetric in its two arguments and always lies in
[1, 21]. -/
theorem contrast_symm_range (a b : String)
    (_hva : isValidHex a = true) (_hla : a.length = 7)
    (_hvb : isValidHex b = true) (_hlb : b.length = 7) :
    getContrastRatio a b = getContrastRatio b a ∧
    1 ≤ getContrastRatio a b ∧ getContrastRatio a b ≤ 21 := by
  have h1a := lum_nonneg a
  have h2a := lum_le_one a
  have h1b := lum_nonneg b
  have h2b := lum_le_one b
  have hminpos : 0 < min (getRelativeLuminance a) (getRelativeLuminance b) + 0.05 := by
    have := le_min h1a h1b
    linarith
  have hmm : min (getRelativeLuminance a) (getRelativeLuminance b)
      ≤ max (getRelativeLuminance a) (getRelativeLuminance b) := min_le_max
  have hraw1 : 1 ≤ (max (getRelativeLuminance a) (getRelativeLuminance b) + 0.05) /
      (min (getRelativeLuminance a) (getRelativeLuminance b) + 0.05) :=
    (one_le_div hminpos).mpr (by linarith [hmm])
  have hraw21 : (max (getRelativeLuminance a) (getRelativeLuminance b) + 0.05) /
      (min (getRelativeLuminance a) (getRelativeLuminance b) + 0.05) ≤ 21 := by
    rw [div_le_iff₀ hminpos]
    have hmax1 : max (getRelativeLuminance a) (getRelativeLuminance b) ≤ 1 := max_le h2a h2b
    have hmin0 : 0 ≤ min (getRelativeLuminance a) (getRelativeLuminance b) := le_min h1a h1b
    linarith
  refine ⟨?_, ?_, ?_⟩
  · rw [getContrastRatio, getContrastRatio, max_comm, min_comm]
  · rw [getContrastRatio]
    have h100 : (100 : ℤ) ≤ round ((max (getRelativeLuminance a) (getRelativeLuminance b) + 0.05) /
        (min (getRelativeLuminance a) (getRelativeLuminance b) + 0.05) * 100) := by
      rw [round_eq]
      exact Int.le_floor.mpr (by push_cast; nlinarith [hraw1])
    have : (100 : ℝ) ≤ (round ((max (getRelativeLuminance a) (getRelativeLuminance b) + 0.05) /
        (min (getRelativeLuminance a) (getRelativeLuminance b) + 0.05) * 100) : ℝ) := by
      exact_mod_cast h100
    linarith
  · rw [getContrastRatio]
    have h2100 : round ((max (getRelativeLuminance a) (getRelativeLuminance b) + 0.05) /
        (min (getRelativeLuminance a) (getRelativeLuminance b) + 0.05) * 100) ≤ (2100 : ℤ) := by
      rw [round_eq]
      have hle : (max (getRelativeLuminance a) (getRelativeLuminance b) + 0.05) /
          (min (getRelativeLuminance a) (getRelativeLuminance b) + 0.05) * 100 + 1 / 2
          ≤ (2100.5 : ℝ) := by linarith [hraw21]
      calc ⌊(max (getRelativeLuminance a) (getRelativeLuminance b) + 0.05) /
          (min (getRelativeLuminance a) (getRelativeLuminance b) + 0.05) * 100 + 1 / 2⌋
          ≤ ⌊(2100.5 : ℝ)⌋ := Int.floor_le_floor hle
        _ = 2100 := Int.floor_eq_iff.mpr ⟨by norm_num, by norm_num⟩
    have : (round ((max (getRelativeLuminance a) (getRelativeLuminance b) + 0.05) /
        (min (getRelativeLuminance a) (getRelativeLuminance b) + 0.05) * 100) : ℝ) ≤ 2100 := by
      exact_mod_cast h2100
    linarith

/-- Witness for C5 at black text and white background. -/
theorem contrast_symm_range_witness :
    isValidHex "#000000" = true ∧ "#000000".length = 7 ∧
    isValidHex "#ffffff" = true ∧ "#ffffff".length = 7 ∧
    (getContrastRatio "#000000" "#ffffff" = getContrastRatio "#ffffff" "#000000" ∧
      1 ≤ getContrastRatio "#000000" "#ffffff" ∧ getContrastRatio "#000000" "#ffffff" ≤ 21) :=
  ⟨by decide, by decide, by decide, by decide,
    contrast_symm_range "#000000" "#ffffff" (by decide) (by decide) (by decide) (by decide)⟩

/-! ## C6: identical colors are not an error -/

/-- C6: evaluating the pair (X, X) for a valid color X produces the
deterministic minimal-contrast result: the returned WCAG ratio is exactly 1
and the APCA Lc is exactly 0 (an early return on indistinguishable
luminances), with no error path. -/
theorem identical_pair_minimal (s : String) (_hv : isValidHex s = true) :
    getContrastRatio s s = 1 ∧ calcAPCA s s = 0 := by
  constructor
  · rw [getContrastRatio, max_self, min_self]
    have hpos : 0 < getRelativeLuminance s + 0.05 := by linarith [lum_nonneg s]
    rw [div_self (ne_of_gt hpos), one_mul]
    have h100 : round ((100 : ℝ)) = (100 : ℤ) := by
      rw [round_eq]
      exact Int.floor_eq_iff.mpr ⟨by norm_num, by norm_num⟩
    rw [h100]
    norm_num
  · rcases heq : hexToRgb s with _ | ⟨r, g, b⟩
    · simp [calcAPCA, heq]
    · simp only [calcAPCA, heq]
      rw [sub_self, abs_zero, if_pos (by norm_num : (0 : ℝ) < 0.0005)]

/-- Witness for C6 at the default palette's blue. -/
theorem identical_pair_minimal_witness :
    isValidHex "#3b82f6" = true ∧
    (getContrastRatio "#3b82f6" "#3b82f6" = 1 ∧ calcAPCA "#3b82f6" "#3b82f6" = 0) :=
  ⟨by decide, identical_pair_minimal "#3b82f6" (by decide)⟩

/-! ## C9: invalid input falls back to zero -/

/-- C9: a string that fails hex validation decodes to the zero fallback:
its relative luminance is 0 and any APCA score involving it is 0; no error
is raised. -/
theorem invalid_color_zero_fallback (s : String) (h : isValidHex s = false) :
    getRelativeLuminance s = 0 ∧ ∀ t, calcAPCA s t = 0 ∧ calcAPCA t s = 0 := by
  have hB : hexBytes s = none := by simp [hexBytes, h]
  have hrgb : hexToRgb s = none := by rw [hexToRgb, hB]; rfl
  refine ⟨by simp [getRelativeLuminance, hrgb], fun t => ⟨by simp [calcAPCA, hrgb], ?_⟩⟩
  rcases heqt : hexToRgb t with _ | ⟨r, g, b⟩
  · simp [calcAPCA, heqt]
  · simp [calcAPCA, heqt, hrgb]

/-- Witness for C9 at the invalid input "red". -/
theorem invalid_color_zero_fallback_witness :
    isValidHex "red" = false ∧
    (getRelativeLuminance "red" = 0 ∧ ∀ t, calcAPCA "red" t = 0 ∧ calcAPCA t "red" = 0) :=
  ⟨by decide, invalid_color_zero_fallback "red" (by decide)⟩

/-! ## C7: visibility is the filter flag of the mode-selected tier -/

/-- C7: a result is visible iff the Filter State flag of the tier selected
by the mode flag is true: the WCAG tier drives visibility when the "APCA
informational only" flag is set, the APCA tier otherwise; and the code's
`filterCombinations` (which always reads the WCAG tier set in `data-level`)
coincides with the mode-flag-true branch. -/
theorem visibility_mode_lookup (textHex bgHex : String) (filterState : Level → Bool)
    (apcaInformationalOnly : Bool) :
    (isVisible (evaluatePair textHex bgHex) filterState apcaInformationalOnly = true ↔
      filterState (if apcaInformationalOnly then
          getComplianceLevel (getContrastRatio textHex bgHex)
        else getAPCAComplianceLevel (calcAPCA textHex bgHex)) = true) ∧
    cardVisible filterState (getComplianceLevel (getContrastRatio textHex bgHex)) =
      isVisible (evaluatePair textHex bgHex) filterState true := by
  constructor
  · cases apcaInformationalOnly <;> simp [isVisible, evaluatePair]
  · simp [isVisible, evaluatePair, cardVisible]

/-! ## C8: the stored palette form after an accepted update -/

/-- Modelled from the spec: the canonical stored form the spec claims for
palette entries, `#` followed by exactly six hexadecimal digits in
lowercase. -/
def canonicalSixLower (s : String) : Bool :=
  match s.data with
  | '#' :: rest => rest.length == 6 &&
      rest.all fun c => (48 ≤ c.toNat && c.toNat ≤ 57) || (97 ≤ c.toNat && c.toNat ≤ 102)
  | _ => false

/-- C8 counterexample: `updateColor` stores an accepted 3-digit shorthand
verbatim.  Updating a palette entry with `#abc` leaves `#abc` in the
palette: the stored string is not expanded to `#aabbcc` and does not match
the canonical 6-digit form. -/
theorem updateColor_stores_shorthand :
    updateColor [⟨"a", "#000000"⟩] "a" "#abc" = [⟨"a", "#abc"⟩] ∧
    canonicalSixLower "#abc" = false ∧ "#abc" ≠ "#aabbcc" :=
  ⟨by decide, by decide, by decide⟩

/-- C8 amended: an accepted update stores a hex string that passes
`isValidHex` (`#` plus 3 or 6 hex digits, either case), so a palette all of
whose entries are valid stays valid; `updateColor` performs no shorthand
expansion and no lowercasing (`expandHex` is applied only to the value fed
to the color-picker input). -/
theorem updateColor_preserves_validHex (cs : List ColorEntry) (i h : String)
    (hcs : ∀ c ∈ cs, isValidHex c.hex = true) :
    ∀ c ∈ updateColor cs i h, isValidHex c.hex = true := by
  revert hcs
  induction cs with
  | nil =>
    intro _ c hc
    simp [updateColor] at hc
  | cons a t ih =>
    intro hcs c hc
    rw [updateColor] at hc
    by_cases hid : a.id = i
    · rw [if_pos hid] at hc
      by_cases hvh : isValidHex h = true
      · rw [if_pos hvh] at hc
        rcases List.mem_cons.mp hc with h1 | h2
        · rw [h1]
          exact hvh
        · exact hcs c (List.mem_cons_of_mem _ h2)
      · rw [if_neg hvh] at hc
        exact hcs c hc
    · rw [if_neg hid] at hc
      rcases List.mem_cons.mp hc with h1 | h2
      · rw [h1]
        exact hcs a (List.mem_cons_self a t)
      · exact ih (fun d hd => hcs d (List.mem_cons_of_mem _ hd)) c h2

/-- Witness for C8's amended statement at the default palette. -/
theorem updateColor_preserves_validHex_witness :
    (∀ c ∈ demoPalette, isValidHex c.hex = true) ∧
    ∀ c ∈ updateColor demoPalette "b" "#abc", isValidHex c.hex = true :=
  ⟨by decide, updateColor_preserves_validHex demoPalette "b" "#abc" (by decide)⟩

/-! ## C10: updates are atomic and framed -/

/-- C10: `updateColor` is atomic and framed: if the hex fails validation or
no entry carries the id, the palette is unchanged; the length never
changes; and every position is either untouched or is the matched entry,
whose id is kept and whose hex becomes the new value (only when the new
value is valid). -/
theorem updateColor_frame (cs : List ColorEntry) (i h : String) :
    ((isValidHex h = false ∨ ∀ c ∈ cs, c.id ≠ i) → updateColor cs i h = cs) ∧
    (updateColor cs i h).length = cs.length ∧
    (∀ (k : ℕ) (c : ColorEntry), cs[k]? = some c →
      (updateColor cs i h)[k]? = some c ∨
      (c.id = i ∧ isValidHex h = true ∧ (updateColor cs i h)[k]? = some ⟨c.id, h⟩)) := by
  induction cs with
  | nil =>
    refine ⟨fun _ => rfl, rfl, fun k c hc => ?_⟩
    simp at hc
  | cons a t ih =>
    obtain ⟨ih1, ih2, ih3⟩ := ih
    refine ⟨?_, ?_, ?_⟩
    · intro hcond
      rw [updateColor]
      rcases hcond with hinv | hnone
      · by_cases hid : a.id = i
        · rw [if_pos hid, if_neg (by simp [hinv])]
        · rw [if_neg hid, ih1 (Or.inl hinv)]
      · have hai : ¬ a.id = i := hnone a (List.mem_cons_self a t)
        rw [if_neg hai, ih1 (Or.inr fun c hc => hnone c (List.mem_cons_of_mem _ hc))]
    · rw [updateColor]
      by_cases hid : a.id = i
      · rw [if_pos hid]
        by_cases hvh : isValidHex h = true
        · rw [if_pos hvh]
          simp
        · rw [if_neg hvh]
      · rw [if_neg hid]
        simp [ih2]
    · intro k c hc
      rw [updateColor]
      by_cases hid : a.id = i
      · rw [if_pos hid]
        by_cases hvh : isValidHex h = true
        · rw [if_pos hvh]
          cases k with
          | zero =>
            have hac : c = a := by simpa using hc.symm
            subst hac
            right
            exact ⟨hid, hvh, by simp⟩
          | succ n =>
            left
            simpa using hc
        · rw [if_neg hvh]
          left
          exact hc
      · rw [if_neg hid]
        cases k with
        | zero =>
          left
          simpa using hc
        | succ n =>
          have hc' : t[n]? = some c := by simpa using hc
          rcases ih3 n c hc' with h1 | ⟨hcid, hvh, h2⟩
          · left
            simpa using h1
          · right
            exact ⟨hcid, hvh, by simpa using h2⟩

/-- Witness for C10: an update with an id no entry carries leaves the
default palette unchanged. -/
theorem updateColor_frame_witness :
    updateColor demoPalette "zzz" "#123456" = demoPalette :=
  (updateColor_frame demoPalette "zzz" "#123456").1 (Or.inr (by decide))

end PaletteChecker
